import Mathlib

/-!
Shallow embedding of the motia-reachouts pipeline steps.

Source files embedded:
 - `src/steps/parse-query.step.py` (Query Parsing Stage)
 - `src/steps/generate-variations.step.py` and `src/generate-variations.step.py`
   (Variation Generation Stage; the two copies have identical handler logic)

External effects (the marvin generation adapter, the supabase store, the
event bus) are modelled as oracles: each call site that can raise in Python
is an `Except String _` outcome supplied by an environment record.  A store
write is recorded in an explicit write log when the call returns success.
Timestamps (`updated_at`, `completed_at`) are real-time values and are
omitted from the modelled write payloads.
-/

namespace ParseQuery

/-- The pydantic `JobQuery` model of `parse-query.step.py` (lines 23-33).
`location` defaults to `"remote"`, `limit` to `10`, `google_dorks` to `[]`
in pydantic; defaults are applied by the oracle producing extraction
results, so the Lean structure carries plain fields. -/
structure JobQuery where
  jobId : String
  query : String
  role : String
  location : String
  limit : Int
  google_dorks : List String
deriving DecidableEq

/-- Python list slicing `xs[:n]` for an `int` bound `n`: the first `n`
elements when `n ≥ 0`, and all but the last `-n` elements when `n < 0`. -/
def pySlice (xs : List String) (n : Int) : List String :=
  if 0 ≤ n then xs.take n.toNat else xs.take (xs.length - (-n).toNat)

/-- Python `str.lower()`, written over the character list so that it
reduces structurally (same semantics as `String.toLower`). -/
def pyLower (s : String) : String := ⟨s.data.map Char.toLower⟩

/-- Lines 99-124 of `generate_smart_dorks`: build the dork list before the
final slice.  Python truthiness of a string is `≠ ""`; the membership test
`' ' in role` is character membership in the string's characters. -/
def dorksPre (pq : JobQuery) : List String :=
  let base := "site:workatastartup.com"
  let role :=
    if pq.role.data.contains ' ' then "\"" ++ pq.role ++ "\"" else pq.role
  let location :=
    if pq.location ≠ "" then
      if pyLower pq.location = "remote" then "\"remote\""
      else "\"" ++ pq.location ++ "\""
    else ""
  let dorks :=
    if location ≠ "" then
      [base ++ " " ++ role ++ " " ++ location,
       base ++ " " ++ role ++ " " ++ location ++ " jobs"]
    else
      [base ++ " " ++ role,
       base ++ " " ++ role ++ " jobs"]
  if dorks.length < 3 then dorks ++ [base ++ " " ++ role ++ " hiring"] else dorks

/-- `generate_smart_dorks` (lines 96-126): the dork list of `dorksPre`
cut down by the Python slice `dorks[:parsed_query.limit]` (a `JobQuery`
always has the `limit` attribute, so the `hasattr` guard always takes the
`limit` branch). -/
def generate_smart_dorks (pq : JobQuery) : List String :=
  pySlice (dorksPre pq) pq.limit

theorem quote_ne_empty (s : String) : ("\"" ++ s ++ "\"") ≠ "" := by
  intro h
  have h2 := congrArg String.length h
  simp [String.length_append] at h2
  exact absurd h2.2 (by decide)

theorem remote_quoted_ne_empty : ("\"remote\"" : String) ≠ "" := by decide

theorem dorksPre_length (q : JobQuery) : (dorksPre q).length = 3 := by
  unfold dorksPre
  by_cases h0 : q.location = ""
  · simp [h0]
  · by_cases h1 : pyLower q.location = "remote" <;>
      simp [h0, h1, quote_ne_empty, remote_quoted_ne_empty]

theorem pySlice_length_le (xs : List String) (n : Int) (h : 0 ≤ n) :
    ((pySlice xs n).length : Int) ≤ n := by
  unfold pySlice
  rw [if_pos h]
  simp [List.length_take]
  omega

theorem pySlice_length_pos (xs : List String) (n : Int) (h : 1 ≤ n)
    (hx : xs ≠ []) : 1 ≤ (pySlice xs n).length := by
  unfold pySlice
  rw [if_pos (by omega)]
  have hlen : 0 < xs.length := List.length_pos.mpr hx
  simp [List.length_take]
  omega

/-- C4: the search-term (dork) generator is deterministic in
`{role, location, limit}` (the other `JobQuery` fields are never read, so
two calls agreeing on those three fields yield the same ordered sequence);
given `limit ≥ 1` the sequence length is at most `limit`, and at least 1
whenever `role` is non-empty. -/
theorem dorks_deterministic_bounded (q1 q2 : JobQuery)
    (hr : q1.role = q2.role) (hl : q1.location = q2.location)
    (hm : q1.limit = q2.limit) (hlim : 1 ≤ q1.limit) :
    generate_smart_dorks q1 = generate_smart_dorks q2 ∧
    ((generate_smart_dorks q1).length : Int) ≤ q1.limit ∧
    (q1.role ≠ "" → 1 ≤ (generate_smart_dorks q1).length) := by
  refine ⟨?_, ?_, fun _ => ?_⟩
  · unfold generate_smart_dorks dorksPre
    rw [hr, hl, hm]
  · exact pySlice_length_le (dorksPre q1) q1.limit (by omega)
  · refine pySlice_length_pos (dorksPre q1) q1.limit hlim ?_
    intro h
    have h2 := congrArg List.length h
    rw [dorksPre_length] at h2
    simp at h2

/-- Witness for C4 at role `"founding engineer"`, location `"remote"`,
limit `3`. -/
theorem dorks_deterministic_bounded_witness :
    generate_smart_dorks ⟨"a", "qa", "founding engineer", "remote", 3, []⟩ =
      generate_smart_dorks ⟨"b", "qb", "founding engineer", "remote", 3, ["x"]⟩ ∧
    ((generate_smart_dorks
        ⟨"a", "qa", "founding engineer", "remote", 3, []⟩).length : Int) ≤ 3 ∧
    1 ≤ (generate_smart_dorks
        ⟨"a", "qa", "founding engineer", "remote", 3, []⟩).length := by
  have h := dorks_deterministic_bounded
    ⟨"a", "qa", "founding engineer", "remote", 3, []⟩
    ⟨"b", "qb", "founding engineer", "remote", 3, ["x"]⟩
    rfl rfl rfl (by decide)
  exact ⟨h.1, h.2.1, h.2.2 (by decide)⟩

/-- C6 counterexample: with `role = "a"`, `location = "b"` (both known and
non-empty) and `limit = 1`, the generated dork sequence has exactly one
entry, so it does not contain at least 2 entries as the claim states. -/
theorem two_dorks_counterexample :
    ("a" : String) ≠ "" ∧ ("b" : String) ≠ "" ∧
    ¬ 2 ≤ (generate_smart_dorks ⟨"j", "q", "a", "b", 1, []⟩).length := by
  refine ⟨by decide, by decide, ?_⟩
  have h : generate_smart_dorks ⟨"j", "q", "a", "b", 1, []⟩ =
      ["site:workatastartup.com a \"b\""] := by rfl
  rw [h]
  decide

/-- C6 amended: for every `JobQuery` with non-empty `role` and `location`
and `limit ≥ 2`, the dork sequence has at least 2 entries and its length
is still capped at `limit` (the claim as stated fails for `limit = 1`,
where the slice `dorks[:1]` leaves a single entry). -/
theorem two_dorks_when_limit_ge_two (q : JobQuery)
    (hr : q.role ≠ "") (hl : q.location ≠ "") (hm : 2 ≤ q.limit) :
    2 ≤ (generate_smart_dorks q).length ∧
    ((generate_smart_dorks q).length : Int) ≤ q.limit := by
  constructor
  · unfold generate_smart_dorks pySlice
    rw [if_pos (by omega)]
    have h3 := dorksPre_length q
    simp [List.length_take]
    omega
  · exact pySlice_length_le (dorksPre q) q.limit (by omega)

/-- Witness for the amended C6 at role `"a"`, location `"b"`, limit `2`. -/
theorem two_dorks_when_limit_ge_two_witness :
    2 ≤ (generate_smart_dorks ⟨"j", "q", "a", "b", 2, []⟩).length ∧
    ((generate_smart_dorks ⟨"j", "q", "a", "b", 2, []⟩).length : Int) ≤ 2 :=
  two_dorks_when_limit_ge_two ⟨"j", "q", "a", "b", 2, []⟩
    (by decide) (by decide) (by decide)

/-- C9: end-to-end scenario A: for role `"founding engineer"`, location
`"san francisco"`, limit 10, the first generated dork is exactly
`site:workatastartup.com "founding engineer" "san francisco"`. -/
theorem scenario_a_first_dork :
    (generate_smart_dorks
        ⟨"job-1", "find founding engineer roles in san francisco",
         "founding engineer", "san francisco", 10, []⟩).head? =
      some "site:workatastartup.com \"founding engineer\" \"san francisco\"" := by
  rfl

/-- Event arguments of `job.query.received` as probed by the handler:
`hasattr(args, f)` is modelled by the field being `some _`;
`getattr(args, "limit", 10)` is `limit.getD 10`. -/
structure EventArgs where
  query : Option String
  jobId : Option String
  limit : Option Int
deriving DecidableEq

/-- The two error shapes the handler can raise: the explicit
`ValueError("Event is missing required field: ...")` of lines 142-147, and
a re-raised exception from the body of the outer `try` (line 223). -/
inductive PError
  | missingField (f : String)
  | raised (msg : String)
deriving DecidableEq

/-- Store writes performed by the Query Parsing Stage handler, by payload
shape (`updated_at` / `completed_at` timestamps omitted):
line 161 (status PROCESSING), line 198 (parsed info), line 214 (ERROR). -/
inductive JobWrite
  | statusProcessing (jobId : String)
  | parsedInfo (jobId : String) (role : String) (location : String)
      (dorks : List String)
  | errorStatus (jobId : String) (msg : String)
deriving DecidableEq

/-- Oracle for one invocation of the parse-query handler: whether supabase
credentials are configured, and the outcome of each external call site
(`Except.error` models the Python call raising). `extractOutcome` is the
result of `marvin.extract` in `parse_job_query` (the first extracted
`JobQuery`, before the handler overwrites `query`, `limit`, `jobId`);
`dorkOutcome` decides whether the guarded dork-generation call at line 180
raises or returns `generate_smart_dorks` of its argument. -/
structure PEnv where
  hasCreds : Bool
  updStatusOutcome : Except String Unit
  extractOutcome : Except String JobQuery
  dorkOutcome : Except String Unit
  updParsedOutcome : Except String Unit
  updErrorOutcome : Except String Unit

/-- Output of one handler invocation: the Python return/raise, the store
writes that succeeded, and the emitted `job.query.processed` payloads. -/
structure POut where
  result : Except PError JobQuery
  writes : List JobWrite
  events : List JobQuery

/-- The `except` block at lines 208-223: best-effort ERROR write (itself
guarded, swallowed on failure) followed by re-raising the exception. -/
def exceptPath (env : PEnv) (jobId : String) (w : List JobWrite)
    (e : String) : POut :=
  let w2 :=
    if env.hasCreds then
      match env.updErrorOutcome with
      | .ok _ =>
          w ++ [JobWrite.errorStatus jobId
            ("Failed during query parsing/dork generation: " ++ e)]
      | .error _ => w
    else w
  ⟨.error (.raised e), w2, []⟩

/-- Lines 188-206: the second store update (parsed info with the local
`google_dorks` variable `gd`), guarded by its own `try` whose failure is
logged and swallowed; then (outside the outer `try`) the emit of
`job.query.processed` with `parsed_query.dict()` and the return. -/
def finishUpdate (env : PEnv) (jobId : String) (w : List JobWrite)
    (pq : JobQuery) (gd : List String) : POut :=
  let w2 :=
    if env.hasCreds then
      match env.updParsedOutcome with
      | .ok _ => w ++ [JobWrite.parsedInfo jobId pq.role pq.location gd]
      | .error _ => w
    else w
  ⟨.ok pq, w2, [pq]⟩

/-- The body of the outer `try` (lines 154-206): status update, extraction
(`parse_job_query` overwrites `query`, `limit`, `jobId` on the extracted
model), guarded dork generation (on failure the local `google_dorks` is set
to `[]` while `parsed_query.google_dorks` keeps its extraction-time value),
then the parsed-info update. -/
def tryBody (env : PEnv) (jobId : String) (query : String)
    (limit : Int) : POut :=
  match (if env.hasCreds then env.updStatusOutcome else Except.ok ()) with
  | .error e => exceptPath env jobId [] e
  | .ok _ =>
    let w1 : List JobWrite :=
      if env.hasCreds then [JobWrite.statusProcessing jobId] else []
    match env.extractOutcome with
    | .error e => exceptPath env jobId w1 e
    | .ok pq0 =>
      let pq1 : JobQuery :=
        { pq0 with query := query, limit := limit, jobId := jobId }
      match env.dorkOutcome with
      | .ok _ =>
        let gd := generate_smart_dorks pq1
        finishUpdate env jobId w1 { pq1 with google_dorks := gd } gd
      | .error _ =>
        finishUpdate env jobId w1 pq1 []

/-- The handler of `parse-query.step.py` (lines 129-229): required-field
validation (in order `query`, then `jobId`) before any store access, then
the `try` body. -/
def parseHandler (env : PEnv) (args : EventArgs) : POut :=
  match args.query with
  | none => ⟨.error (.missingField "query"), [], []⟩
  | some query =>
    match args.jobId with
    | none => ⟨.error (.missingField "jobId"), [], []⟩
    | some jobId =>
      tryBody env jobId query (args.limit.getD 10)

/-- Concrete environment where the extraction call raises `"boom"` while
every store call succeeds and credentials are configured. -/
def pEnvExtractFail : PEnv :=
  ⟨true, .ok (), .error "boom", .ok (), .ok (), .ok ()⟩

/-- Concrete environment where extraction succeeds (returning a model whose
`google_dorks` field is `["seed"]`) and dork generation raises. -/
def pEnvDorkFail : PEnv :=
  ⟨true, .ok (), .ok ⟨"", "", "engineer", "remote", 5, ["seed"]⟩,
   .error "dorkfail", .ok (), .ok ()⟩

/-- C5: an event missing `query` or `jobId` makes the handler raise a
missing-field error before any store access: no write and no emit happens
in that invocation. -/
theorem missing_field_aborts (env : PEnv) (args : EventArgs)
    (h : args.query = none ∨ args.jobId = none) :
    (∃ f, (parseHandler env args).result = .error (.missingField f)) ∧
    (parseHandler env args).writes = [] ∧
    (parseHandler env args).events = [] := by
  rcases h with h | h
  · refine ⟨⟨"query", ?_⟩, ?_, ?_⟩ <;> simp [parseHandler, h]
  · cases hq : args.query with
    | none => refine ⟨⟨"query", ?_⟩, ?_, ?_⟩ <;> simp [parseHandler, hq]
    | some q => refine ⟨⟨"jobId", ?_⟩, ?_, ?_⟩ <;> simp [parseHandler, hq, h]

/-- Witness for C5: an event with `jobId` but no `query`. -/
theorem missing_field_aborts_witness :
    (∃ f, (parseHandler pEnvExtractFail ⟨none, some "j0", none⟩).result =
      .error (.missingField f)) ∧
    (parseHandler pEnvExtractFail ⟨none, some "j0", none⟩).writes = [] ∧
    (parseHandler pEnvExtractFail ⟨none, some "j0", none⟩).events = [] :=
  missing_field_aborts pEnvExtractFail ⟨none, some "j0", none⟩ (Or.inl rfl)

/-- C1 counterexample: for the event
`{query: "find founding engineer roles", jobId: "j1"}` with a failing
extraction call, the handler raises (instead of falling back to a
heuristic) and an ERROR-status write for the job is performed — refuting
"the parsing step never raises" and "extraction failure never puts the job
into ERROR status". -/
theorem extract_failure_counterexample :
    (parseHandler pEnvExtractFail
        ⟨some "find founding engineer roles", some "j1", none⟩).result =
      .error (.raised "boom") ∧
    (parseHandler pEnvExtractFail
        ⟨some "find founding engineer roles", some "j1", none⟩).writes =
      [.statusProcessing "j1",
       .errorStatus "j1" "Failed during query parsing/dork generation: boom"] := by
  constructor <;> rfl

/-- C1 amended: there is no fallback heuristic — on extraction failure the
handler's outer `except` block persists ERROR status on the job
(best-effort: when credentials are present and the error write succeeds)
and re-raises the exception; no `job.query.processed` event is emitted. -/
theorem extract_failure_raises_and_errors (env : PEnv) (args : EventArgs)
    (q j e : String)
    (hq : args.query = some q) (hj : args.jobId = some j)
    (hs : env.updStatusOutcome = .ok ())
    (hx : env.extractOutcome = .error e) :
    (parseHandler env args).result = .error (.raised e) ∧
    (parseHandler env args).events = [] ∧
    (env.hasCreds = true → env.updErrorOutcome = .ok () →
      JobWrite.errorStatus j
          ("Failed during query parsing/dork generation: " ++ e) ∈
        (parseHandler env args).writes) := by
  have hred : parseHandler env args = tryBody env j q (args.limit.getD 10) := by
    simp [parseHandler, hq, hj]
  rw [hred]
  unfold tryBody
  have hscrut :
      (if env.hasCreds then env.updStatusOutcome else Except.ok ()) =
        .ok () := by
    cases env.hasCreds <;> simp [hs]
  rw [hscrut, hx]
  unfold exceptPath
  refine ⟨rfl, rfl, fun hc he => ?_⟩
  simp [hc, he]

/-- Witness for the amended C1 at the concrete failing environment. -/
theorem extract_failure_raises_and_errors_witness :
    (parseHandler pEnvExtractFail
        ⟨some "find founding engineer roles", some "j1", none⟩).result =
      .error (.raised "boom") ∧
    JobWrite.errorStatus "j1"
        ("Failed during query parsing/dork generation: " ++ "boom") ∈
      (parseHandler pEnvExtractFail
        ⟨some "find founding engineer roles", some "j1", none⟩).writes := by
  have h := extract_failure_raises_and_errors pEnvExtractFail
    ⟨some "find founding engineer roles", some "j1", none⟩
    "find founding engineer roles" "j1" "boom" rfl rfl rfl rfl
  exact ⟨h.1, h.2.2 rfl rfl⟩

/-- C10 counterexample: when extraction returns a model whose
`google_dorks` is `["seed"]` and the dork-generation call fails, the
handler still succeeds — but the returned and emitted `JobQuery` payload
carries `google_dorks = ["seed"]`, not the empty list the claim states
(only the store write gets the empty local `google_dorks`). -/
theorem dork_failure_payload_counterexample :
    (parseHandler pEnvDorkFail ⟨some "q1", some "j2", none⟩).result =
      .ok ⟨"j2", "q1", "engineer", "remote", 10, ["seed"]⟩ ∧
    (parseHandler pEnvDorkFail ⟨some "q1", some "j2", none⟩).events =
      [⟨"j2", "q1", "engineer", "remote", 10, ["seed"]⟩] ∧
    (["seed"] : List String) ≠ [] := by
  refine ⟨rfl, rfl, by decide⟩

/-- C10 amended: a dork-generation failure is caught internally and never
fails the job: the handler still returns and emits the parsed `JobQuery`
(whose `google_dorks` keeps its extraction-time value rather than being
emptied), the job record is persisted with status PROCESSING and
`google_dorks = []` in the store write, and no ERROR-status write occurs. -/
theorem dork_failure_caught (env : PEnv) (args : EventArgs)
    (q j e : String) (pq0 : JobQuery)
    (hq : args.query = some q) (hj : args.jobId = some j)
    (hs : env.updStatusOutcome = .ok ())
    (hx : env.extractOutcome = .ok pq0)
    (hd : env.dorkOutcome = .error e) :
    (parseHandler env args).result =
      .ok { pq0 with query := q, limit := args.limit.getD 10, jobId := j } ∧
    (parseHandler env args).events =
      [{ pq0 with query := q, limit := args.limit.getD 10, jobId := j }] ∧
    (env.hasCreds = true → env.updParsedOutcome = .ok () →
      (parseHandler env args).writes =
        [JobWrite.statusProcessing j,
         JobWrite.parsedInfo j pq0.role pq0.location []]) ∧
    (∀ j2 m, JobWrite.errorStatus j2 m ∉ (parseHandler env args).writes) := by
  have hred : parseHandler env args = tryBody env j q (args.limit.getD 10) := by
    simp [parseHandler, hq, hj]
  rw [hred]
  unfold tryBody
  have hscrut :
      (if env.hasCreds then env.updStatusOutcome else Except.ok ()) =
        .ok () := by
    cases env.hasCreds <;> simp [hs]
  rw [hscrut, hx, hd]
  unfold finishUpdate
  refine ⟨rfl, rfl, fun hc hu => ?_, fun j2 m => ?_⟩
  · simp [hc, hu]
  · by_cases hc : env.hasCreds <;> cases hup : env.updParsedOutcome <;>
      simp [hc, hup]

/-- Witness for the amended C10 at the concrete failing environment. -/
theorem dork_failure_caught_witness :
    (parseHandler pEnvDorkFail ⟨some "q1", some "j2", none⟩).writes =
      [JobWrite.statusProcessing "j2",
       JobWrite.parsedInfo "j2" "engineer" "remote" []] ∧
    JobWrite.errorStatus "j2" "x" ∉
      (parseHandler pEnvDorkFail ⟨some "q1", some "j2", none⟩).writes := by
  have h := dork_failure_caught pEnvDorkFail ⟨some "q1", some "j2", none⟩
    "q1" "j2" "dorkfail" ⟨"", "", "engineer", "remote", 5, ["seed"]⟩
    rfl rfl rfl rfl rfl
  exact ⟨h.2.2.1 rfl rfl, h.2.2.2 "j2" "x"⟩

end ParseQuery

namespace GenVariations

/-- One row of the batch select
`emails.select("id,body_1,lead_id").eq("status","Scheduled")`: each
projected column may be absent/null. -/
structure EmailRow where
  id : Option String
  lead_id : Option String
  body_1 : Option String
deriving DecidableEq

/-- Python falsiness of an optional string column value (`not x`):
true for a missing/null value and for the empty string. -/
def falsy : Option String → Bool
  | none => true
  | some s => s == ""

/-- Oracle for one invocation of the variations handler.  `configOk`
models both supabase environment variables being set; each `Except` is the
outcome of the corresponding external call (`Except.error` = the call
raised).  `gen` is indexed by a global adapter-call counter so that the
three per-email `generate_variation` calls are independent; its other two
arguments are the `job_description` and `current_message` inputs.
`leadLookup` returns the `maybe_single()` row for a lead id
(`none` = no row / falsy data) holding the nullable `job_description`
column. -/
structure VEnv where
  configOk : Bool
  clientInitOutcome : Except String Unit
  selectOutcome : Except String (List EmailRow)
  leadLookup : String → Except String (Option (Option String))
  gen : Nat → String → String → Except String String
  updateOutcome : String → Except String Unit

/-- Mutable state threaded through the batch loop: successful variant
writes `(email_id, body_2, body_3, body_4)`, emitted
`email.variations.generated` payloads `(emailId, leadId)`, the
`processed_count`, and the adapter-call counter. -/
structure VState where
  writes : List (String × String × String × String)
  events : List (String × String)
  processed : Nat
  calls : Nat
deriving DecidableEq

/-- Lines 113-116: the `job_description` used for generation — the
literal fallback when the looked-up column value is falsy (null/empty). -/
def jdOf (jdRow : Option String) : String :=
  if falsy jdRow then "No job description provided." else jdRow.getD ""

/-- Lines 95-143 (steps/ copy; 93-141 in the root copy), one loop
iteration: skip on falsy `id`/`lead_id`/`body_1`; lead lookup (a raised
store error aborts the pass, a missing row skips); empty `job_description`
replaced by the literal fallback; three adapter calls; the single update
write; the per-email emit and counter increment.  `Except.error` carries
the exception message together with the state at the raise point. -/
def processEmail (env : VEnv) (st : VState) (e : EmailRow) :
    Except (String × VState) VState :=
  if falsy e.id || falsy e.lead_id || falsy e.body_1 then .ok st
  else
    match env.leadLookup (e.lead_id.getD "") with
    | .error err => .error (err, st)
    | .ok none => .ok st
    | .ok (some jdRow) =>
      let jd := jdOf jdRow
      match env.gen st.calls jd (e.body_1.getD "") with
      | .error err => .error (err, { st with calls := st.calls + 1 })
      | .ok b2 =>
        match env.gen (st.calls + 1) jd (e.body_1.getD "") with
        | .error err => .error (err, { st with calls := st.calls + 2 })
        | .ok b3 =>
          match env.gen (st.calls + 2) jd (e.body_1.getD "") with
          | .error err => .error (err, { st with calls := st.calls + 3 })
          | .ok b4 =>
            match env.updateOutcome (e.id.getD "") with
            | .error err => .error (err, { st with calls := st.calls + 3 })
            | .ok _ =>
              .ok { writes := st.writes ++ [(e.id.getD "", b2, b3, b4)],
                    events := st.events ++ [(e.id.getD "", e.lead_id.getD "")],
                    processed := st.processed + 1,
                    calls := st.calls + 3 }

/-- The `for email in email_response.data` loop: emails processed in
order; the first raised exception aborts the remaining iterations. -/
def processEmails (env : VEnv) (st : VState) :
    List EmailRow → Except (String × VState) VState
  | [] => .ok st
  | e :: rest =>
    match processEmail env st e with
    | .ok st2 => processEmails env st2 rest
    | .error es => .error es

/-- The handler's returned envelope: `{success: true, count: n}` or
`{success: false, error: msg}`. -/
inductive VResult
  | success (count : Nat)
  | failure (error : String)
deriving DecidableEq

/-- Observable outcome of one handler invocation: the returned envelope,
the successful variant writes, and the emitted events. -/
structure VOut where
  result : VResult
  writes : List (String × String × String × String)
  events : List (String × String)
deriving DecidableEq

def initState : VState := ⟨[], [], 0, 0⟩

/-- The handler of `generate-variations.step.py` (identical in both
copies): the whole body runs inside one `try`; `init_supabase_client`
raises `"Missing Supabase configuration."` when credentials are absent;
the batch select feeds the loop; every uncaught exception is converted by
the `except` block into a `{success: false, error}` envelope. -/
def variationsHandler (env : VEnv) : VOut :=
  if env.configOk = false then
    ⟨.failure "Missing Supabase configuration.", [], []⟩
  else
    match env.clientInitOutcome with
    | .error e => ⟨.failure e, [], []⟩
    | .ok _ =>
      match env.selectOutcome with
      | .error e => ⟨.failure e, [], []⟩
      | .ok rows =>
        if rows.isEmpty then ⟨.success 0, [], []⟩
        else
          match processEmails env initState rows with
          | .ok st => ⟨.success st.processed, st.writes, st.events⟩
          | .error (e, st) => ⟨.failure e, st.writes, st.events⟩

end GenVariations

namespace GenVariations

theorem processEmail_error_state (env : VEnv) (st : VState) (e : EmailRow)
    (err : String) (st2 : VState)
    (h : processEmail env st e = .error (err, st2)) :
    st2.writes = st.writes ∧ st2.events = st.events ∧
    st2.processed = st.processed := by
  unfold processEmail at h
  by_cases h0 : (falsy e.id || falsy e.lead_id || falsy e.body_1) = true
  · simp [h0] at h
  · simp only [h0, Bool.false_eq_true, if_false, ite_false] at h
    cases hL : env.leadLookup (e.lead_id.getD "") with
    | error errL =>
      simp only [hL] at h
      cases h
      exact ⟨rfl, rfl, rfl⟩
    | ok v =>
      cases v with
      | none => simp [hL] at h
      | some jdRow =>
        simp only [hL] at h
        cases hg1 : env.gen st.calls (jdOf jdRow) (e.body_1.getD "") with
        | error err1 =>
          simp only [hg1] at h
          cases h
          exact ⟨rfl, rfl, rfl⟩
        | ok b2 =>
          simp only [hg1] at h
          cases hg2 : env.gen (st.calls + 1) (jdOf jdRow) (e.body_1.getD "") with
          | error err2 =>
            simp only [hg2] at h
            cases h
            exact ⟨rfl, rfl, rfl⟩
          | ok b3 =>
            simp only [hg2] at h
            cases hg3 : env.gen (st.calls + 2) (jdOf jdRow) (e.body_1.getD "") with
            | error err3 =>
              simp only [hg3] at h
              cases h
              exact ⟨rfl, rfl, rfl⟩
            | ok b4 =>
              simp only [hg3] at h
              cases hu : env.updateOutcome (e.id.getD "") with
              | error errU =>
                simp only [hu] at h
                cases h
                exact ⟨rfl, rfl, rfl⟩
              | ok u =>
                simp [hu] at h

theorem processEmail_skip (env : VEnv) (st : VState) (e : EmailRow)
    (h : falsy e.id = true ∨ falsy e.lead_id = true ∨ falsy e.body_1 = true ∨
         env.leadLookup (e.lead_id.getD "") = .ok none) :
    processEmail env st e = .ok st := by
  unfold processEmail
  by_cases h0 : (falsy e.id || falsy e.lead_id || falsy e.body_1) = true
  · simp [h0]
  · rcases h with h | h | h | h
    · simp [h] at h0
    · simp [h] at h0
    · simp [h] at h0
    · simp [h0, h]

/-- Two good rows whose first adapter call fails, for C2. -/
def rowA : EmailRow := ⟨some "e1", some "l1", some "b1"⟩

def rowB : EmailRow := ⟨some "e2", some "l2", some "b2"⟩

def vEnvGenFail : VEnv :=
  ⟨true, .ok (), .ok [rowA, rowB],
   fun _ => .ok (some (some "jd")),
   fun n _ _ => if n = 0 then .error "generr" else .ok "v",
   fun _ => .ok ()⟩

/-- C2 counterexample: with two eligible Scheduled emails and the very
first adapter call failing, the handler returns the failure envelope with
no writes and no events at all — the second email is never processed, so
the stage does not "advance to the next email in the batch". -/
theorem gen_failure_counterexample :
    variationsHandler vEnvGenFail = ⟨.failure "generr", [], []⟩ := by
  rfl

theorem processEmails_append_ok (env : VEnv) (l1 l2 : List EmailRow) :
    ∀ (st st2 : VState), processEmails env st l1 = .ok st2 →
      processEmails env st (l1 ++ l2) = processEmails env st2 l2 := by
  induction l1 with
  | nil =>
    intro st st2 h
    simp [processEmails] at h
    subst h
    simp
  | cons e rest ih =>
    intro st st2 h
    simp only [processEmails] at h
    cases hpe : processEmail env st e with
    | ok stm =>
      simp only [hpe] at h
      simp only [List.cons_append, processEmails, hpe]
      exact ih stm st2 h
    | error es =>
      simp only [hpe] at h
      cases h

/-- C2 amended: when processing any email of the batch raises (in
particular when any one of the three generate-variation calls for that
email fails), no variant fields are written for that email — the update
only runs after all three calls succeed — and the exception aborts the
whole pass instead of advancing to the next email: the handler returns
`{success: false, error}`, its writes and events are exactly those
accumulated for the emails processed before the failing one, and the
remaining emails of the batch are not processed. -/
theorem gen_failure_aborts_pass (env : VEnv) (pre : List EmailRow)
    (e : EmailRow) (rest : List EmailRow) (err : String) (st st2 : VState)
    (hc : env.configOk = true)
    (hi : env.clientInitOutcome = .ok ())
    (hs : env.selectOutcome = .ok (pre ++ e :: rest))
    (hpre : processEmails env initState pre = .ok st)
    (h : processEmail env st e = .error (err, st2)) :
    (variationsHandler env).result = .failure err ∧
    (variationsHandler env).writes = st.writes ∧
    (variationsHandler env).events = st.events ∧
    st2.writes = st.writes ∧ st2.events = st.events ∧
    st2.processed = st.processed := by
  obtain ⟨h1, h2, h3⟩ := processEmail_error_state env st e err st2 h
  have hps : processEmails env initState (pre ++ e :: rest) =
      .error (err, st2) := by
    rw [processEmails_append_ok env pre (e :: rest) initState st hpre]
    simp [processEmails, h]
  have hne : (pre ++ e :: rest).isEmpty = false := by
    cases pre <;> simp
  refine ⟨?_, ?_, ?_, h1, h2, h3⟩ <;>
    simp [variationsHandler, hc, hi, hs, hps, hne, h1, h2]

def rowC : EmailRow := ⟨some "e3", some "l3", some "b3"⟩

/-- Three eligible rows; adapter call 3 — the first generate-variation
call of the second email — fails, so the first email is fully processed
and the second raises mid-batch. -/
def vEnvGenFailMid : VEnv :=
  ⟨true, .ok (), .ok [rowA, rowB, rowC],
   fun _ => .ok (some (some "jd")),
   fun n _ _ => if n = 3 then .error "generr" else .ok "v",
   fun _ => .ok ()⟩

/-- Witness for the amended C2 at a mid-batch failure: the first email's
variants are written and its event emitted, the failing second email gets
no write, and the third email is never processed. -/
theorem gen_failure_aborts_pass_witness :
    (variationsHandler vEnvGenFailMid).result = .failure "generr" ∧
    (variationsHandler vEnvGenFailMid).writes = [("e1", "v", "v", "v")] ∧
    (variationsHandler vEnvGenFailMid).events = [("e1", "l1")] := by
  have h := gen_failure_aborts_pass vEnvGenFailMid [rowA] rowB [rowC]
    "generr" ⟨[("e1", "v", "v", "v")], [("e1", "l1")], 1, 3⟩
    ⟨[("e1", "v", "v", "v")], [("e1", "l1")], 1, 4⟩
    rfl rfl rfl rfl rfl
  exact ⟨h.1, h.2.1, h.2.2.1⟩

/-- C3: the variations handler is total over every oracle behavior: it
always returns an envelope that is either `{success: true, count: n}` or
`{success: false, error: m}`; and when the batch select raises, the
returned envelope is the failure one with that message and no
email-record update has been written (and nothing emitted). -/
theorem variations_handler_total (env : VEnv) :
    ((∃ n, (variationsHandler env).result = .success n) ∨
     (∃ m, (variationsHandler env).result = .failure m)) ∧
    (∀ e, env.configOk = true → env.clientInitOutcome = .ok () →
      env.selectOutcome = .error e →
      variationsHandler env = ⟨.failure e, [], []⟩) := by
  constructor
  · cases hres : (variationsHandler env).result with
    | success n => exact Or.inl ⟨n, rfl⟩
    | failure m => exact Or.inr ⟨m, rfl⟩
  · intro e hc hi hs
    simp [variationsHandler, hc, hi, hs]

def vEnvSelectFail : VEnv :=
  ⟨true, .ok (), .error "network down",
   fun _ => .ok none, fun _ _ _ => .ok "v", fun _ => .ok ()⟩

/-- Witness for C3: a failing batch select yields the failure envelope
with no writes. -/
theorem variations_handler_total_witness :
    ((∃ n, (variationsHandler vEnvSelectFail).result = .success n) ∨
     (∃ m, (variationsHandler vEnvSelectFail).result = .failure m)) ∧
    variationsHandler vEnvSelectFail = ⟨.failure "network down", [], []⟩ :=
  ⟨(variations_handler_total vEnvSelectFail).1,
   (variations_handler_total vEnvSelectFail).2 "network down" rfl rfl rfl⟩

/-- C7: a selected row with falsy `id`, `lead_id` or `body_1`, or whose
lead lookup finds no record, is skipped: its processing is the identity on
the loop state (no write, no event, no `processed_count` increment) and
the pass continues with the remaining emails exactly as if the row were
absent. -/
theorem bad_rows_skipped (env : VEnv) (st : VState) (e : EmailRow)
    (rest : List EmailRow)
    (h : falsy e.id = true ∨ falsy e.lead_id = true ∨ falsy e.body_1 = true ∨
         env.leadLookup (e.lead_id.getD "") = .ok none) :
    processEmail env st e = .ok st ∧
    processEmails env st (e :: rest) = processEmails env st rest := by
  have h2 := processEmail_skip env st e h
  exact ⟨h2, by simp [processEmails, h2]⟩

/-- Witness for C7: a row with no `lead_id` is skipped, and so is a row
whose lead lookup returns no record. -/
theorem bad_rows_skipped_witness :
    (processEmail vEnvGenFail initState ⟨some "e9", none, some "b"⟩ =
      .ok initState ∧
     processEmails vEnvGenFail initState
        [⟨some "e9", none, some "b"⟩, rowB] =
      processEmails vEnvGenFail initState [rowB]) :=
  bad_rows_skipped vEnvGenFail initState ⟨some "e9", none, some "b"⟩ [rowB]
    (Or.inr (Or.inl rfl))

end GenVariations

namespace GenVariations

/-- A full stored email record (the columns this stage touches), used to
model the batch select against the `emails` table. -/
structure StoredEmail where
  id : String
  lead_id : String
  status : String
  body_1 : Option String
  body_2 : Option String
  body_3 : Option String
  body_4 : Option String
deriving DecidableEq

/-- The batch select
`emails.select("id,body_1,lead_id").eq("status", "Scheduled")`: rows are
filtered on `status` alone (the variant columns `body_2..4` are neither
filtered on nor projected). -/
def selectScheduled (emails : List StoredEmail) : List EmailRow :=
  (emails.filter (fun r => r.status == "Scheduled")).map
    (fun r => ⟨some r.id, some r.lead_id, r.body_1⟩)

/-- Number of variant-update writes recorded for email id `x`. -/
def writesFor (x : String)
    (ws : List (String × String × String × String)) : Nat :=
  (ws.filter (fun w => w.1 == x)).length

/-- Number of selected rows carrying email id `x`. -/
def rowsFor (x : String) (rows : List EmailRow) : Nat :=
  (rows.filter (fun e => e.id.getD "" == x)).length

theorem writesFor_append (x : String)
    (ws : List (String × String × String × String))
    (k b2 b3 b4 : String) :
    writesFor x (ws ++ [(k, b2, b3, b4)]) =
      writesFor x ws + (if k == x then 1 else 0) := by
  simp only [writesFor, List.filter_append, List.length_append]
  cases hk : (k == x) <;> simp [hk]

theorem rowsFor_cons (x : String) (e : EmailRow) (rest : List EmailRow) :
    rowsFor x (e :: rest) =
      (if e.id.getD "" == x then 1 else 0) + rowsFor x rest := by
  simp only [rowsFor, List.filter_cons]
  cases hk : (e.id.getD "" == x) <;> simp [hk] <;> omega

theorem processEmail_ok_writes (env : VEnv) (st : VState) (e : EmailRow)
    (st2 : VState) (h : processEmail env st e = .ok st2) :
    st2.writes = st.writes ∨
    ∃ b2 b3 b4, st2.writes = st.writes ++ [(e.id.getD "", b2, b3, b4)] := by
  unfold processEmail at h
  by_cases h0 : (falsy e.id || falsy e.lead_id || falsy e.body_1) = true
  · simp [h0] at h
    subst h
    exact Or.inl rfl
  · simp only [h0, Bool.false_eq_true, if_false, ite_false] at h
    cases hL : env.leadLookup (e.lead_id.getD "") with
    | error errL => simp [hL] at h
    | ok v =>
      cases v with
      | none =>
        simp [hL] at h
        subst h
        exact Or.inl rfl
      | some jdRow =>
        simp only [hL] at h
        cases hg1 : env.gen st.calls (jdOf jdRow) (e.body_1.getD "") with
        | error err1 => simp [hg1] at h
        | ok b2 =>
          simp only [hg1] at h
          cases hg2 : env.gen (st.calls + 1) (jdOf jdRow) (e.body_1.getD "") with
          | error err2 => simp [hg2] at h
          | ok b3 =>
            simp only [hg2] at h
            cases hg3 : env.gen (st.calls + 2) (jdOf jdRow) (e.body_1.getD "") with
            | error err3 => simp [hg3] at h
            | ok b4 =>
              simp only [hg3] at h
              cases hu : env.updateOutcome (e.id.getD "") with
              | error errU => simp [hu] at h
              | ok u =>
                simp only [hu] at h
                cases h
                exact Or.inr ⟨b2, b3, b4, rfl⟩

theorem writesFor_step (env : VEnv) (st : VState) (e : EmailRow)
    (x : String) (st2 : VState)
    (h : processEmail env st e = .ok st2 ∨
         ∃ err, processEmail env st e = .error (err, st2)) :
    writesFor x st2.writes ≤
      writesFor x st.writes + (if e.id.getD "" == x then 1 else 0) := by
  rcases h with h | ⟨err, h⟩
  · rcases processEmail_ok_writes env st e st2 h with h2 | ⟨b2, b3, b4, h2⟩
    · rw [h2]; omega
    · rw [h2, writesFor_append]
  · rw [(processEmail_error_state env st e err st2 h).1]
    omega

/-- Final loop state of a pass, whether the loop completed or a raise
aborted it. -/
def passFinal (env : VEnv) (st : VState) (rows : List EmailRow) : VState :=
  match processEmails env st rows with
  | .ok st2 => st2
  | .error (_, st2) => st2

theorem passFinal_writesFor (env : VEnv) (x : String) :
    ∀ (rows : List EmailRow) (st : VState),
      writesFor x (passFinal env st rows).writes ≤
        writesFor x st.writes + rowsFor x rows := by
  intro rows
  induction rows with
  | nil =>
    intro st
    simp [passFinal, processEmails, rowsFor]
  | cons e rest ih =>
    intro st
    cases hpe : processEmail env st e with
    | ok st2 =>
      have heq : passFinal env st (e :: rest) = passFinal env st2 rest := by
        simp [passFinal, processEmails, hpe]
      have hstep := writesFor_step env st e x st2 (Or.inl hpe)
      have hrec := ih st2
      rw [heq, rowsFor_cons]
      omega
    | error es =>
      obtain ⟨err, st2⟩ := es
      have heq : passFinal env st (e :: rest) = st2 := by
        simp [passFinal, processEmails, hpe]
      have hstep := writesFor_step env st e x st2 (Or.inr ⟨err, hpe⟩)
      rw [heq, rowsFor_cons]
      omega

theorem handler_writes (env : VEnv) (rows : List EmailRow)
    (hc : env.configOk = true) (hi : env.clientInitOutcome = .ok ())
    (hs : env.selectOutcome = .ok rows) :
    (variationsHandler env).writes = (passFinal env initState rows).writes := by
  unfold variationsHandler passFinal
  simp only [hc, hi, hs, Bool.true_eq_false, if_false, ite_false]
  by_cases he : rows.isEmpty
  · have hnil : rows = [] := by
      cases rows with
      | nil => rfl
      | cons a b => simp [List.isEmpty] at he
    subst hnil
    simp [processEmails, initState]
  · simp only [he, Bool.false_eq_true, if_false, ite_false]
    cases hp : processEmails env initState rows with
    | ok st => simp
    | error es =>
      obtain ⟨a, b⟩ := es
      simp

end GenVariations

namespace GenVariations

theorem overwrite_single (env : VEnv) (r : StoredEmail)
    (jd b2 b3 b4 : String)
    (hst : r.status = "Scheduled") (hid : r.id ≠ "") (hlid : r.lead_id ≠ "")
    (hb : falsy r.body_1 = false)
    (hc : env.configOk = true) (hi : env.clientInitOutcome = .ok ())
    (hs : env.selectOutcome = .ok (selectScheduled [r]))
    (hld : env.leadLookup r.lead_id = .ok (some (some jd))) (hjd : jd ≠ "")
    (hg0 : env.gen 0 jd (r.body_1.getD "") = .ok b2)
    (hg1 : env.gen 1 jd (r.body_1.getD "") = .ok b3)
    (hg2 : env.gen 2 jd (r.body_1.getD "") = .ok b4)
    (hu : env.updateOutcome r.id = .ok ()) :
    variationsHandler env =
      ⟨.success 1, [(r.id, b2, b3, b4)], [(r.id, r.lead_id)]⟩ := by
  have hid' : (r.id == "") = false := beq_eq_false_iff_ne.mpr hid
  have hlid' : (r.lead_id == "") = false := beq_eq_false_iff_ne.mpr hlid
  have hjd' : (jd == "") = false := beq_eq_false_iff_ne.mpr hjd
  have hsel : selectScheduled [r] =
      [⟨some r.id, some r.lead_id, r.body_1⟩] := by
    simp [selectScheduled, hst]
  have hfid : falsy (some r.id) = false := by simp [falsy, hid']
  have hflid : falsy (some r.lead_id) = false := by simp [falsy, hlid']
  have hjdOf : jdOf (some jd) = jd := by simp [jdOf, falsy, hjd']
  have hpe : processEmail env initState
      ⟨some r.id, some r.lead_id, r.body_1⟩ =
      .ok ⟨[(r.id, b2, b3, b4)], [(r.id, r.lead_id)], 1, 3⟩ := by
    unfold processEmail
    simp [hfid, hflid, hb, hld, hjdOf, hg0, hg1, hg2, hu, initState]
  have hps : processEmails env initState
      [(⟨some r.id, some r.lead_id, r.body_1⟩ : EmailRow)] =
      .ok ⟨[(r.id, b2, b3, b4)], [(r.id, r.lead_id)], 1, 3⟩ := by
    simp [processEmails, hpe]
  unfold variationsHandler
  simp [hc, hi, hs, hsel, hps]

end GenVariations

namespace GenVariations

/-- C8: the work-set selection of the Variation Generation Stage depends
only on `status = "Scheduled"`, never on whether `body_2..4` are already
populated: (1) every stored email in Scheduled status is selected whatever
its variant columns hold; (2) a new pass over a Scheduled email whose
`body_2..4` are already populated (those columns are universally
quantified here) still processes it and its variant update carries the
fresh adapter outputs — there is no skip-if-already-has-variants guard;
(3) within a single pass each selected row is processed at most once: the
number of variant writes for any email id never exceeds the number of
selected rows carrying that id. -/
theorem selection_status_only :
    (∀ (emails : List StoredEmail) (r : StoredEmail), r ∈ emails →
       r.status = "Scheduled" →
       (⟨some r.id, some r.lead_id, r.body_1⟩ : EmailRow) ∈
         selectScheduled emails) ∧
    (∀ (env : VEnv) (r : StoredEmail) (jd b2 b3 b4 : String),
       r.status = "Scheduled" → r.id ≠ "" → r.lead_id ≠ "" →
       falsy r.body_1 = false →
       env.configOk = true → env.clientInitOutcome = .ok () →
       env.selectOutcome = .ok (selectScheduled [r]) →
       env.leadLookup r.lead_id = .ok (some (some jd)) → jd ≠ "" →
       env.gen 0 jd (r.body_1.getD "") = .ok b2 →
       env.gen 1 jd (r.body_1.getD "") = .ok b3 →
       env.gen 2 jd (r.body_1.getD "") = .ok b4 →
       env.updateOutcome r.id = .ok () →
       variationsHandler env =
         ⟨.success 1, [(r.id, b2, b3, b4)], [(r.id, r.lead_id)]⟩) ∧
    (∀ (env : VEnv) (rows : List EmailRow) (x : String),
       env.configOk = true → env.clientInitOutcome = .ok () →
       env.selectOutcome = .ok rows →
       writesFor x (variationsHandler env).writes ≤ rowsFor x rows) := by
  refine ⟨?_, ?_, ?_⟩
  · intro emails r hmem hst
    unfold selectScheduled
    exact List.mem_map.mpr ⟨r, List.mem_filter.mpr ⟨hmem, by simp [hst]⟩, rfl⟩
  · intro env r jd b2 b3 b4 hst hid hlid hb hc hi hs hld hjd hg0 hg1 hg2 hu
    exact overwrite_single env r jd b2 b3 b4 hst hid hlid hb hc hi hs hld
      hjd hg0 hg1 hg2 hu
  · intro env rows x hc hi hs
    rw [handler_writes env rows hc hi hs]
    have h := passFinal_writesFor env x rows initState
    have h0 : writesFor x initState.writes = 0 := by simp [initState, writesFor]
    omega

/-- A Scheduled record whose variant columns are already populated. -/
def rStored : StoredEmail :=
  ⟨"e1", "l1", "Scheduled", some "b", some "old2", some "old3", some "old4"⟩

def vEnvC8 : VEnv :=
  ⟨true, .ok (), .ok (selectScheduled [rStored]),
   fun _ => .ok (some (some "jd")),
   fun n _ _ => .ok (if n = 0 then "v2" else if n = 1 then "v3" else "v4"),
   fun _ => .ok ()⟩

/-- Witness for C8 at a Scheduled record with already-populated variants:
it is selected again and its variant write carries the fresh outputs. -/
theorem selection_status_only_witness :
    (⟨some "e1", some "l1", some "b"⟩ : EmailRow) ∈
      selectScheduled [rStored] ∧
    variationsHandler vEnvC8 =
      ⟨.success 1, [("e1", "v2", "v3", "v4")], [("e1", "l1")]⟩ ∧
    writesFor "e1" (variationsHandler vEnvC8).writes ≤
      rowsFor "e1" (selectScheduled [rStored]) := by
  refine ⟨?_, ?_, ?_⟩
  · exact selection_status_only.1 [rStored] rStored (by simp) rfl
  · exact selection_status_only.2.1 vEnvC8 rStored "jd" "v2" "v3" "v4"
      rfl (by decide) (by decide) rfl rfl rfl rfl rfl (by decide)
      rfl rfl rfl rfl
  · exact selection_status_only.2.2 vEnvC8 (selectScheduled [rStored]) "e1"
      rfl rfl rfl

end GenVariations
